import Mathlib

/-!
Verification development for the PubTator parsing tool.

Python strings are modelled as lists of characters (`PyStr`); Python's
fallible operations (attribute access, list indexing, iterator `next`,
tuple unpacking, `int()` conversion) are modelled in the `Except PyError`
monad.  The diff produced by the external `diff_match_patch` library is a
parameter of the alignment walk: only its per-character flag sequence is
consumed by the source code (pubtator_document.py, lines 157-158).
-/

/-- Python strings, modelled as lists of characters. -/
abbrev PyStr := List Char

/-- Convert a Lean string literal into the `PyStr` model. -/
def pys (s : String) : PyStr := s.data

/-- The Python exceptions that the modelled code can raise. -/
inductive PyError where
  | valueError
  | indexError
  | stopIteration
  | attributeError
deriving DecidableEq

/-- Python `str.split(sep)` for a one-character separator: splits at every
occurrence, keeping empty fields, and yields `[s]` when the separator is
absent (in particular `[[]]` on the empty string). -/
def pySplit (sep : Char) : PyStr → List PyStr
  | [] => [[]]
  | c :: rest =>
    if c = sep then [] :: pySplit sep rest
    else
      match pySplit sep rest with
      | [] => [[c]]
      | r :: rs => (c :: r) :: rs

/-- Numeric value of a list of decimal digits. -/
def digitsVal (l : PyStr) : Nat :=
  l.foldl (fun n c => 10 * n + (c.toNat - 48)) 0

/-- A nonempty list of decimal digits. -/
def digitsOk (l : PyStr) : Bool :=
  !l.isEmpty && l.all Char.isDigit

/-- Model of the Python builtin `int(s)` on strings: surrounding whitespace
is ignored, an optional sign precedes a nonempty digit string; anything
else raises `ValueError`. -/
def pyInt (s : PyStr) : Except PyError Int :=
  let t := ((s.dropWhile Char.isWhitespace).reverse.dropWhile Char.isWhitespace).reverse
  match t with
  | '-' :: ds => if digitsOk ds then .ok (-(digitsVal ds : Int)) else .error .valueError
  | '+' :: ds => if digitsOk ds then .ok (digitsVal ds : Int) else .error .valueError
  | ds => if digitsOk ds then .ok (digitsVal ds : Int) else .error .valueError

/-- Python list subscription `l[i]` with an `int` index: negative indices
count from the end, and an out-of-range index raises `IndexError`. -/
def pyGetI {α : Type} (l : List α) (i : Int) : Except PyError α :=
  let j := if i < 0 then i + (l.length : Int) else i
  if 0 ≤ j then
    match l.get? j.toNat with
    | some a => .ok a
    | none => .error .indexError
  else .error .indexError

/-- Python list item assignment `l[i] = a` for a non-negative index:
out-of-range raises `IndexError`. -/
def pySetN {α : Type} (l : List α) (i : Nat) (a : α) : Except PyError (List α) :=
  if i < l.length then .ok (l.set i a) else .error .indexError

/-- One UMLS entity mention (pubtator_document.py, class UMLS_Entity).
The source stores the original line in `_orig_text`; the remaining fields
come from tab-splitting that line. -/
structure UMLS_Entity where
  orig_text : PyStr
  start_idx : Int
  stop_idx : Int
  mention_text : PyStr
  semantic_type_ID : PyStr
  cui : PyStr
deriving DecidableEq

/-- `UMLS_Entity.__init__`: the annotation line is tab-split and unpacked
into exactly six fields (a wrong field count raises `ValueError`), the
concept reference keeps only the suffix after the last colon, and the two
offsets are converted with `int()` (raising `ValueError` on failure). -/
def UMLS_Entity.init (text : PyStr) : Except PyError UMLS_Entity :=
  match pySplit '\t' text with
  | [_, f1, f2, f3, f4, f5] =>
    match pyInt f1, pyInt f2 with
    | .ok s, .ok e =>
      .ok { orig_text := text, start_idx := s, stop_idx := e,
            mention_text := f3, semantic_type_ID := f4,
            cui := ((pySplit ':' f5).getLast?).getD [] }
    | _, _ => .error .valueError
  | _ => .error .valueError

/-- `text_preprocess` (pubtator_document.py, lines 6-25): split the raw
line on `|`, take the first field as the PMID, drop the marker field,
re-join the remainder with `|` and strip the final character (the line
terminator).  Unpacking fewer than two fields raises `ValueError`. -/
def text_preprocess (t : PyStr) : Except PyError (PyStr × PyStr) :=
  match pySplit '|' t with
  | pmid :: _ :: rest => .ok (pmid, (List.intercalate (pys "|") rest).dropLast)
  | _ => .error .valueError

/-- A character- or token-level target: the `(cui, semantic_type_ID)`
pair stored by `_initialize_targets`. -/
abbrev Label := PyStr × PyStr

/-- The span test of pubtator_document.py line 120:
`i >= e.start_idx and i < e.stop_idx`. -/
def covers (e : UMLS_Entity) (i : Nat) : Bool :=
  e.start_idx ≤ (i : Int) && (i : Int) < e.stop_idx

/-- Step 1 of `_initialize_targets` (lines 116-124): for every position of
the raw text, walk the entity list in order and overwrite the slot with
the label of each entity covering the position (the two `continue`
statements in the source are no-ops). -/
def char_level_targets (raw : PyStr) (entities : List UMLS_Entity) :
    List (Option Label) :=
  (List.range raw.length).map (fun i =>
    entities.foldl
      (fun cur e => if covers e i then some (e.cui, e.semantic_type_ID) else cur)
      none)

/-- The mutable state of the token/char co-walk of `_initialize_targets`
(lines 160-202).  `rem` models the unconsumed part of `iter(self.text)`. -/
structure WalkState where
  token_targets : List (Option Label)
  token_to_char_lookup : List (List Int)
  chars_left_in_current_token : Int
  current_char_index : Int
  current_token_index : Nat
  rem : List PyStr
deriving DecidableEq

/-- Lines 178-184: when the current token has no characters left, store
`char_level_targets[current_char_index]` (Python indexing, so `-1` reads
the last slot) as the token's target, move to the next token, open a
fresh lookup list, and pull the next token off the iterator (raising
`StopIteration` when it is exhausted). -/
def finalize_tok (clt : List (Option Label)) (st : WalkState) :
    Except PyError WalkState :=
  if st.chars_left_in_current_token = 0 then
    match pyGetI clt st.current_char_index with
    | .error e => .error e
    | .ok lbl =>
      match pySetN st.token_targets st.current_token_index lbl with
      | .error e => .error e
      | .ok tt =>
        match st.rem with
        | [] => .error .stopIteration
        | t :: r =>
          .ok { st with token_targets := tt,
                        token_to_char_lookup := st.token_to_char_lookup ++ [[]],
                        current_token_index := st.current_token_index + 1,
                        chars_left_in_current_token := (t.length : Int),
                        rem := r }
  else .ok st

/-- Lines 188-202: a `0` flag consumes one raw character and one token
character and records the raw index in the lookup table; a `-1` flag
consumes one raw character only; any other flag consumes one token
character only. -/
def consume_flag (st : WalkState) (flag : Int) : WalkState :=
  if flag = 0 then
    { st with
      current_char_index := st.current_char_index + 1,
      token_to_char_lookup :=
        st.token_to_char_lookup.set st.current_token_index
          ((st.token_to_char_lookup.getD st.current_token_index []) ++
            [st.current_char_index + 1]),
      chars_left_in_current_token := st.chars_left_in_current_token - 1 }
  else if flag = -1 then
    { st with current_char_index := st.current_char_index + 1 }
  else
    { st with chars_left_in_current_token := st.chars_left_in_current_token - 1 }

/-- One iteration of the `for flag in diff` loop (lines 174-202). -/
def walkStep (clt : List (Option Label)) (st : WalkState) (flag : Int) :
    Except PyError WalkState :=
  (finalize_tok clt st).map (fun s => consume_flag s flag)

/-- The whole co-walk (lines 160-202): the targets list starts all-`None`,
the first `next(token)` is taken before the loop (raising `StopIteration`
on an empty token list), the raw cursor starts at `-1`, and the lookup
table starts as `{0: []}`. -/
def walkDiff (clt : List (Option Label)) (text : List PyStr)
    (flags : List Int) : Except PyError WalkState :=
  match text with
  | [] => .error .stopIteration
  | t :: rest =>
    List.foldlM (walkStep clt)
      { token_targets := List.replicate (rest.length + 1) (none : Option Label),
        token_to_char_lookup := [[]],
        chars_left_in_current_token := (t.length : Int),
        current_char_index := -1,
        current_token_index := 0,
        rem := rest }
      flags

/-- Lines 157-158: turn the segment-level diff of the external
`diff_match_patch` library into the per-character flag sequence the loop
consumes. -/
def flatten_diff (diff : List (Int × PyStr)) : List Int :=
  diff.flatMap (fun p => List.replicate p.2.length p.1)

/-- The flag sequence fully covers the raw text: flags `0` and `-1` each
consume one raw character. -/
def covers_raw (flags : List Int) (n : Nat) : Prop :=
  flags.countP (fun f => f == 0 || f == -1) = n

/-- The flag sequence fully covers the token concatenation: flags `0` and
`1` each consume one character of the joined tokens. -/
def covers_tokens (flags : List Int) (n : Nat) : Prop :=
  flags.countP (fun f => f == 0 || f == 1) = n

instance (flags : List Int) (n : Nat) : Decidable (covers_raw flags n) := by
  unfold covers_raw; infer_instance

instance (flags : List Int) (n : Nat) : Decidable (covers_tokens flags n) := by
  unfold covers_tokens; infer_instance

/-- The in-memory document (class PubTatorDocument): the fields built by
`__init__` and `_initialize_targets` that the claims are about.  The
sentence segmentation (external nltk capability) is not modelled: no
claim depends on it. -/
structure PubTatorDocument where
  pmid : PyStr
  title : PyStr
  abstract : PyStr
  raw_text : PyStr
  umls_entities : List UMLS_Entity
  text : List PyStr
  char_level_targets : List (Option Label)
  targets : List (Option Label)
  token_to_char_lookup : List (List Int)
  start_end_indices : List (Int × Int)
deriving DecidableEq

/-- `PubTatorDocument.__init__` composed with `_initialize_targets`.
`tokenize` is the external tokenizer capability and `diffOf` the external
`diff_match_patch.diff_main`; both are parameters of the model.  Order of
operations follows the source: parse title and abstract, build the entity
list, form `raw_text = title + "\n" + abstract`, tokenize, run the
alignment walk, then record the shifted start/end pairs (lines 110-114).
-/
def mkDocument (tokenize : PyStr → List PyStr)
    (diffOf : PyStr → PyStr → List (Int × PyStr))
    (title_line abstract_line : PyStr) (mentions : List PyStr) :
    Except PyError PubTatorDocument :=
  match text_preprocess title_line with
  | .error e => .error e
  | .ok (pmid, title) =>
    match text_preprocess abstract_line with
    | .error e => .error e
    | .ok (_, abstract) =>
      match mentions.mapM UMLS_Entity.init with
      | .error e => .error e
      | .ok entities =>
        let raw_text : PyStr := title ++ '\n' :: abstract
        let text := tokenize raw_text
        let clt := char_level_targets raw_text entities
        let flags := flatten_diff (diffOf raw_text text.flatten)
        match walkDiff clt text flags with
        | .error e => .error e
        | .ok st =>
          .ok { pmid := pmid, title := title, abstract := abstract,
                raw_text := raw_text, umls_entities := entities,
                text := text, char_level_targets := clt,
                targets := st.token_targets,
                token_to_char_lookup := st.token_to_char_lookup,
                start_end_indices :=
                  entities.map (fun e => (e.start_idx - 1, e.stop_idx - 1)) }

/-- `PubTatorDocument.write_to` (lines 213-219), as the string appended to
the file: the two pipe-joined header lines, one line per entity (its
original text), and a blank line. -/
def write_to (d : PubTatorDocument) : PyStr :=
  List.intercalate (pys "|") [d.pmid, pys "t", d.title] ++ pys "\n" ++
  List.intercalate (pys "|") [d.pmid, pys "a", d.abstract] ++ pys "\n" ++
  (d.umls_entities.map (fun e => e.orig_text ++ pys "\n")).flatten ++
  pys "\n"

/-- `PubTatorDocument.get_vocab`: `list(set(self.text))`, modelled as the
token list with duplicates removed (Python's set iteration order is
unspecified; no claim depends on the order). -/
def get_vocab (d : PubTatorDocument) : List PyStr :=
  d.text.eraseDups

/-- Python attribute lookup on a `UMLS_Entity` for string-valued
attributes; any name the class does not define raises `AttributeError`.
Modelled dynamically because `PubTatorCorpus._get_cuids_and_vocab` reads
an attribute name (`concept_ID`) that the class never defines. -/
def UMLS_Entity.pyAttr (e : UMLS_Entity) (name : PyStr) :
    Except PyError PyStr :=
  if name = pys "cui" then .ok e.cui
  else if name = pys "semantic_type_ID" then .ok e.semantic_type_ID
  else if name = pys "mention_text" then .ok e.mention_text
  else .error .attributeError

/-- The counter-dictionary update of lines 62-69: increment the entry if
the key is present, otherwise insert it with count 1. -/
def bump (m : List (PyStr × Nat)) (k : PyStr) : List (PyStr × Nat) :=
  if m.any (fun p => p.1 == k) then
    m.map (fun p => if p.1 = k then (p.1, p.2 + 1) else p)
  else m ++ [(k, 1)]

/-- Python `set.union`, modelled on duplicate-free lists. -/
def pyUnion (a b : List PyStr) : List PyStr :=
  a ++ b.filter (fun x => !(a.contains x))

/-- The body of the inner entity loop of
`PubTatorCorpus._get_cuids_and_vocab` (lines 61-69): count
`entity.concept_ID` (dynamic attribute lookup, faithful to the source)
and `entity.semantic_type_ID`. -/
def count_entity (cs : List (PyStr × Nat) × List (PyStr × Nat))
    (e : UMLS_Entity) :
    Except PyError (List (PyStr × Nat) × List (PyStr × Nat)) :=
  match UMLS_Entity.pyAttr e (pys "concept_ID") with
  | .error er => .error er
  | .ok cid => .ok (bump cs.1 cid, bump cs.2 e.semantic_type_ID)

/-- The body of the document loop of lines 60-70: run the entity loop,
then union in the document vocabulary. -/
def count_document
    (acc : List (PyStr × Nat) × List (PyStr × Nat) × List PyStr)
    (d : PubTatorDocument) :
    Except PyError (List (PyStr × Nat) × List (PyStr × Nat) × List PyStr) :=
  match List.foldlM count_entity (acc.1, acc.2.1) d.umls_entities with
  | .error er => .error er
  | .ok (c, s) => .ok (c, s, pyUnion acc.2.2 (get_vocab d))

/-- `PubTatorCorpus._get_cuids_and_vocab` (pubtator_corpus.py, lines
51-71): fold over all documents, and inside each over its entities,
counting `entity.concept_ID` and `entity.semantic_type_ID` occurrences,
then union in the document vocabulary. -/
def get_cuids_and_vocab (docs : List PubTatorDocument) :
    Except PyError (List (PyStr × Nat) × List (PyStr × Nat) × List PyStr) :=
  List.foldlM count_document ([], [], []) docs

deriving instance DecidableEq for Except

/-! ### Concrete instances used by the claim theorems and witnesses -/

/-- A tokenizer capability that returns the whole text as one token. -/
def exTok : PyStr → List PyStr := fun s => [s]

/-- A diff capability that classifies every raw character as common with
the joined tokens; it fully covers the raw text by construction. -/
def exDiff : PyStr → PyStr → List (Int × PyStr) := fun a _ => [(0, a)]

/-- The document built by `mkDocument exTok exDiff` from the record
`"1|t|a\n" / "1|a|b\n"` with one mention spanning the whole raw text. -/
def exDoc : PubTatorDocument :=
  { pmid := pys "1", title := pys "a", abstract := pys "b",
    raw_text := pys "a\nb",
    umls_entities :=
      [{ orig_text := pys "1\t0\t3\tm\tT1\tUMLS:C9",
         start_idx := 0, stop_idx := 3, mention_text := pys "m",
         semantic_type_ID := pys "T1", cui := pys "C9" }],
    text := [pys "a\nb"],
    char_level_targets :=
      [some (pys "C9", pys "T1"), some (pys "C9", pys "T1"),
       some (pys "C9", pys "T1")],
    targets := [none],
    token_to_char_lookup := [[0, 1, 2]],
    start_end_indices := [(-1, 2)] }

example : mkDocument exTok exDiff (pys "1|t|a\n") (pys "1|a|b\n")
    [pys "1\t0\t3\tm\tT1\tUMLS:C9"] = .ok exDoc := by decide

/-- A document carrying only entity mentions (the corpus counting loop
reads nothing else besides the token list); doc A of the C2 scenario,
with two mentions of concept C1. -/
def exDocA : PubTatorDocument :=
  { pmid := pys "10", title := pys "t", abstract := pys "s",
    raw_text := pys "t\ns",
    umls_entities :=
      [{ orig_text := pys "10\t0\t1\tt\tT1\tC1",
         start_idx := 0, stop_idx := 1, mention_text := pys "t",
         semantic_type_ID := pys "T1", cui := pys "C1" },
       { orig_text := pys "10\t2\t3\ts\tT1\tC1",
         start_idx := 2, stop_idx := 3, mention_text := pys "s",
         semantic_type_ID := pys "T1", cui := pys "C1" }],
    text := [pys "t\ns"], char_level_targets := [none, none, none],
    targets := [none], token_to_char_lookup := [[0, 1, 2]],
    start_end_indices := [(-1, 0), (1, 2)] }

/-- Doc B of the C2 scenario, with one mention of concept C1. -/
def exDocB : PubTatorDocument :=
  { pmid := pys "11", title := pys "u", abstract := pys "v",
    raw_text := pys "u\nv",
    umls_entities :=
      [{ orig_text := pys "11\t0\t1\tu\tT2\tC1",
         start_idx := 0, stop_idx := 1, mention_text := pys "u",
         semantic_type_ID := pys "T2", cui := pys "C1" }],
    text := [pys "u\nv"], char_level_targets := [none, none, none],
    targets := [none], token_to_char_lookup := [[0, 1, 2]],
    start_end_indices := [(-1, 0)] }

/-! ### Claim theorems -/

/-- Claim C1 (code bug, shown at a failing input): with raw text of
length 2 whose two characters both carry a label, tokens `["a", "b"]`
and the flag sequence `[0, 0]` — which fully covers both the raw text
and the token concatenation — the co-walk ends with
`current_token_index = 1`, not `len(tokens) = 2`, and the second token's
target is still `None` instead of the label of the last raw character
consumed while filling it: the loop finalizes a token only at the start
of a later iteration, so the final token is never finalized. -/
theorem claim_C1_cowalk_end_state :
    walkDiff [some (pys "C", pys "T"), some (pys "C", pys "T")]
        [pys "a", pys "b"] [0, 0] =
      .ok { token_targets := [some (pys "C", pys "T"), none],
            token_to_char_lookup := [[0], [1]],
            chars_left_in_current_token := 0,
            current_char_index := 1,
            current_token_index := 1,
            rem := [] } ∧
    covers_raw [0, 0] 2 ∧ covers_tokens [0, 0] 2 ∧
    [pys "a", pys "b"].length = 2 := by decide

/-- Claim C2 (code bug, shown at the claim's own scenario): a corpus of
two documents in which concept C1 appears as a mention twice in doc A
and once in doc B.  The aggregate count never becomes 3: the counting
loop reads `entity.concept_ID`, an attribute `UMLS_Entity` never defines
(the class stores the identifier in `cui`), so corpus construction
raises `AttributeError` at the first mention. -/
theorem claim_C2_corpus_count_attribute_crash :
    get_cuids_and_vocab [exDocA, exDocB] = .error .attributeError ∧
    (exDocA.umls_entities ++ exDocB.umls_entities).countP
        (fun e => e.cui == pys "C1") = 3 := by decide

/-- Claim C5, counterexample: the aligner performs no coverage check.
With raw text `"ab"`, the single token `"ab"` and an empty flag sequence
— which covers neither string — the co-walk completes without raising
anything. -/
theorem claim_C5_counterexample :
    (walkDiff (char_level_targets (pys "ab") []) [pys "ab"] []).isOk = true ∧
    ¬ covers_raw [] (pys "ab").length ∧
    ¬ covers_tokens [] [pys "ab"].flatten.length := by decide

/-- Claim C5 as amended: the first `next(token)` is taken before the
loop, so an empty token sequence always fails with an uncaught
`StopIteration` (whatever the raw text and flags); but the
implementation asserts nothing about coverage — a non-covering flag
sequence is walked without error. -/
theorem claim_C5_amended_empty_tokens_fail :
    (∀ (clt : List (Option Label)) (flags : List Int),
      walkDiff clt [] flags = .error .stopIteration) ∧
    (walkDiff [none, none] [pys "ab"] []).isOk = true :=
  ⟨fun _ _ => rfl, by decide⟩

/-- Claim C8 (code bug, shown at a failing input): a document whose
single entity mention spans the entire raw text `"a\nb"` (offsets 0 to
3), tokenized into two tokens.  Every character carries the entity's
label, yet `targets` ends as `[some label, none]`: the final token's
target is never assigned, so the token labels are not uniformly
non-empty. -/
theorem claim_C8_full_span_not_uniform :
    mkDocument (fun _ => [pys "a", pys "\nb"]) exDiff
        (pys "1|t|a\n") (pys "1|a|b\n") [pys "1\t0\t3\tm\tT1\tC7"] =
      .ok { pmid := pys "1", title := pys "a", abstract := pys "b",
            raw_text := pys "a\nb",
            umls_entities :=
              [{ orig_text := pys "1\t0\t3\tm\tT1\tC7",
                 start_idx := 0, stop_idx := 3, mention_text := pys "m",
                 semantic_type_ID := pys "T1", cui := pys "C7" }],
            text := [pys "a", pys "\nb"],
            char_level_targets :=
              [some (pys "C7", pys "T1"), some (pys "C7", pys "T1"),
               some (pys "C7", pys "T1")],
            targets := [some (pys "C7", pys "T1"), none],
            token_to_char_lookup := [[0], [1, 2]],
            start_end_indices := [(-1, 2)] } ∧
    ¬ (∀ t ∈ [some (pys "C7", pys "T1"), (none : Option Label)],
        t = some (pys "C7", pys "T1")) := by decide

/-- Unconditional-overwrite fold: starting from `a`, overwriting with
`some (f e)` at every element satisfying `p` yields the image of the last
satisfying element (or `a` when none does). -/
theorem foldl_overwrite {α β : Type} (p : α → Bool) (f : α → β) :
    ∀ (l : List α) (a : Option β),
      l.foldl (fun cur e => if p e then some (f e) else cur) a =
        (((l.filter p).getLast?).map f).or a := by
  intro l
  induction l with
  | nil => intro a; rfl
  | cons x t ih =>
    intro a
    rw [List.foldl_cons, ih]
    by_cases hx : p x
    · simp only [List.filter_cons, hx, if_pos]
      cases hft : t.filter p with
      | nil => simp
      | cons y ys =>
        rw [List.getLast?_cons_cons,
            List.getLast?_eq_getLast (y :: ys) (by simp)]
        simp
    · simp [List.filter_cons, hx]

/-- Claim C3 (confirmed): for every raw text, entity sequence and
position `i` of the raw text, the character label at `i` is the label of
the **last** entity in the sequence whose span covers `i`, and empty when
no entity covers `i`: the nested loop of lines 116-124 overwrites
unconditionally in sequence order. -/
theorem claim_C3_char_label_last_override (raw : PyStr)
    (entities : List UMLS_Entity) (i : Nat) (h : i < raw.length) :
    (char_level_targets raw entities).getD i none =
      (((entities.filter (fun e => covers e i)).getLast?).map
        (fun e => (e.cui, e.semantic_type_ID))) := by
  unfold char_level_targets
  rw [List.getD_eq_getElem?_getD, List.getElem?_map, List.getElem?_range h]
  simp only [Option.map_some', Option.getD_some]
  rw [foldl_overwrite (fun e => covers e i)
    (fun e => (e.cui, e.semantic_type_ID)) entities none]
  simp

/-- An entity with span [0, 2). -/
def entA : UMLS_Entity :=
  { orig_text := [], start_idx := 0, stop_idx := 2, mention_text := [],
    semantic_type_ID := pys "T1", cui := pys "C1" }

/-- An entity with span [0, 1), later in the sequence than `entA`. -/
def entB : UMLS_Entity :=
  { orig_text := [], start_idx := 0, stop_idx := 1, mention_text := [],
    semantic_type_ID := pys "T2", cui := pys "C2" }

/-- Witness for C3: both `entA` and `entB` cover position 0 of `"ab"`;
the later entity `entB` wins. -/
theorem claim_C3_witness :
    (char_level_targets (pys "ab") [entA, entB]).getD 0 none =
      some (pys "C2", pys "T2") :=
  (claim_C3_char_label_last_override (pys "ab") [entA, entB] 0
    (by decide)).trans (by decide)

/-- Claim C4 (confirmed): parsing an annotation line succeeds exactly
when the line tab-splits into six fields whose start/end fields convert
with `int()` (any other shape raises — modelled as the `ValueError` the
unpacking or conversion raises); on success the stored concept identifier
is the suffix of the sixth field after its last colon. -/
theorem claim_C4_entity_parse (line : PyStr) :
    ((UMLS_Entity.init line).isOk = true ↔
      ((pySplit '\t' line).length = 6 ∧
       (pyInt ((pySplit '\t' line).getD 1 [])).isOk = true ∧
       (pyInt ((pySplit '\t' line).getD 2 [])).isOk = true)) ∧
    (∀ e, UMLS_Entity.init line = .ok e →
      e.cui = ((pySplit ':' ((pySplit '\t' line).getD 5 [])).getLast?).getD []) := by
  unfold UMLS_Entity.init
  rcases hs : pySplit '\t' line with _ | ⟨f0, _ | ⟨f1, _ | ⟨f2, _ | ⟨f3, _ |
    ⟨f4, _ | ⟨f5, _ | ⟨f6, rest⟩⟩⟩⟩⟩⟩⟩ <;>
    simp only [hs, List.length_cons, List.length_nil, List.getD_cons_succ,
      List.getD_cons_zero, List.getD_nil] <;>
    try simp [Except.isOk, Except.toBool]
  · rcases h1 : pyInt f1 with e1 | v1 <;> rcases h2 : pyInt f2 with e2 | v2 <;>
      simp [h1, h2, Except.isOk, Except.toBool] <;> intro e he <;>
      simp [← he]

/-- Witness for C4: the spec's scenario line parses, and the retained
concept identifier is the suffix after the namespace prefix. -/
theorem claim_C4_witness :
    (UMLS_Entity.init (pys "123\t0\t4\tNony\tT001\tUMLS:C000111")).isOk = true ∧
    ((pySplit ':' ((pySplit '\t'
        (pys "123\t0\t4\tNony\tT001\tUMLS:C000111")).getD 5 [])).getLast?).getD []
      = pys "C000111" :=
  ⟨(claim_C4_entity_parse (pys "123\t0\t4\tNony\tT001\tUMLS:C000111")).1.mpr
    (by decide), by decide⟩

/-- `pySplit` never returns the empty list. -/
theorem pySplit_ne_nil (sep : Char) (s : PyStr) : pySplit sep s ≠ [] := by
  induction s with
  | nil => simp [pySplit]
  | cons c rest ih =>
    unfold pySplit
    by_cases hc : c = sep
    · simp [hc]
    · simp only [hc, if_false]
      cases h : pySplit sep rest with
      | nil => simp
      | cons r rs => simp

/-- Behaviour of `intercalate` on a two-or-more-element list. -/
theorem intercalate_cons_of_ne_nil {α : Type} (s x : List α)
    (ys : List (List α)) (h : ys ≠ []) :
    List.intercalate s (x :: ys) = x ++ s ++ List.intercalate s ys := by
  cases ys with
  | nil => exact absurd rfl h
  | cons y ys' => simp [List.intercalate, List.intersperse]

/-- Re-joining a `pySplit` with its separator restores the string. -/
theorem intercalate_pySplit (sep : Char) (s : PyStr) :
    List.intercalate [sep] (pySplit sep s) = s := by
  induction s with
  | nil => simp [pySplit, List.intercalate]
  | cons c rest ih =>
    unfold pySplit
    by_cases hc : c = sep
    · subst hc
      rw [if_pos rfl]
      rw [intercalate_cons_of_ne_nil [c] [] (pySplit c rest)
        (pySplit_ne_nil c rest), ih]
      simp
    · simp only [hc, if_false]
      cases h : pySplit sep rest with
      | nil => exact absurd h (pySplit_ne_nil sep rest)
      | cons r rs =>
        rw [h] at ih
        cases rs with
        | nil =>
          simp [List.intercalate] at ih ⊢
          simp [ih]
        | cons r2 rs2 =>
          rw [intercalate_cons_of_ne_nil [sep] (c :: r) (r2 :: rs2) (by simp)]
          rw [intercalate_cons_of_ne_nil [sep] r (r2 :: rs2) (by simp)] at ih
          simp [← ih]

/-- Splitting a string that starts with a separator-free prefix followed
by the separator peels off exactly that prefix. -/
theorem pySplit_peel (sep : Char) (id rest : PyStr) (h : sep ∉ id) :
    pySplit sep (id ++ sep :: rest) = id :: pySplit sep rest := by
  induction id with
  | nil => simp [pySplit]
  | cons c id' ih =>
    have hc : c ≠ sep := fun hcs => h (hcs ▸ List.mem_cons_self c id')
    have h' : sep ∉ id' := fun hm => h (List.mem_cons_of_mem c hm)
    simp only [List.cons_append]
    conv_lhs => unfold pySplit
    simp only [hc, if_false]
    rw [ih h']

/-- Splitting on the pipe after a non-pipe marker character peels the
one-character marker field. -/
theorem pySplit_marker (m : Char) (r : PyStr) (hm : m ≠ '|') :
    pySplit '|' (m :: '|' :: r) = [m] :: pySplit '|' r := by
  have inner : pySplit '|' ('|' :: r) = [] :: pySplit '|' r := by
    conv_lhs => unfold pySplit
    simp
  conv_lhs => unfold pySplit
  simp only [hm, if_false]
  rw [inner]

/-- Parsing one emitted header line — a pipe-free id, a one-character
marker and the text followed by the line terminator — recovers exactly
the id and the text, even when the text itself contains pipes: only the
first two pipe-delimited fields are structurally significant. -/
theorem text_preprocess_emit (id text : PyStr) (m : Char)
    (h : '|' ∉ id) (hm : m ≠ '|') :
    text_preprocess (id ++ '|' :: m :: '|' :: (text ++ ['\n'])) =
      .ok (id, text) := by
  unfold text_preprocess
  rw [pySplit_peel '|' id (m :: '|' :: (text ++ ['\n'])) h,
      pySplit_marker m (text ++ ['\n']) hm]
  show Except.ok (id, (List.intercalate (pys "|")
      (pySplit '|' (text ++ ['\n']))).dropLast) = .ok (id, text)
  have hsep : pys "|" = ['|'] := rfl
  rw [hsep, intercalate_pySplit '|' (text ++ ['\n']), List.dropLast_concat]

/-- `'|'.join` of a three-element list, written out. -/
theorem intercalate_three (a b c : PyStr) :
    List.intercalate (pys "|") [a, b, c] = a ++ pys "|" ++ b ++ pys "|" ++ c := by
  rw [intercalate_cons_of_ne_nil (pys "|") a [b, c] (by simp),
      intercalate_cons_of_ne_nil (pys "|") b [c] (by simp)]
  simp [List.intercalate, List.intersperse, List.append_assoc]

/-- Claim C9 (confirmed): the serializer emits exactly the two header
lines `{id}|t|{title}\n` and `{id}|a|{abstract}\n` followed by the
original annotation lines and a blank line; and parsing an emitted title
or abstract line recovers exactly the original id and text, even when
the text contains `|` characters. -/
theorem claim_C9_serialize_roundtrip (d : PubTatorDocument) (id text : PyStr)
    (h : '|' ∉ id) :
    (write_to d =
      d.pmid ++ pys "|t|" ++ d.title ++ pys "\n" ++
      d.pmid ++ pys "|a|" ++ d.abstract ++ pys "\n" ++
      (d.umls_entities.map (fun e => e.orig_text ++ pys "\n")).flatten ++
      pys "\n") ∧
    text_preprocess (id ++ pys "|t|" ++ text ++ pys "\n") = .ok (id, text) ∧
    text_preprocess (id ++ pys "|a|" ++ text ++ pys "\n") = .ok (id, text) := by
  have hpt : pys "|t|" = '|' :: 't' :: '|' :: [] := rfl
  have hpa : pys "|a|" = '|' :: 'a' :: '|' :: [] := rfl
  have hnl : pys "\n" = ['\n'] := rfl
  have hp : pys "|" = ['|'] := rfl
  have ht : pys "t" = ['t'] := rfl
  have ha : pys "a" = ['a'] := rfl
  refine ⟨?_, ?_, ?_⟩
  · unfold write_to
    rw [intercalate_three, intercalate_three]
    simp [hpt, hpa, hnl, hp, ht, ha, List.append_assoc]
  · have harr : id ++ pys "|t|" ++ text ++ pys "\n" =
        id ++ '|' :: 't' :: '|' :: (text ++ ['\n']) := by
      simp [hpt, hnl, List.append_assoc]
    rw [harr]
    exact text_preprocess_emit id text 't' h (by decide)
  · have harr : id ++ pys "|a|" ++ text ++ pys "\n" =
        id ++ '|' :: 'a' :: '|' :: (text ++ ['\n']) := by
      simp [hpa, hnl, List.append_assoc]
    rw [harr]
    exact text_preprocess_emit id text 'a' h (by decide)

/-- Witness for C9: a concrete document and a text containing a pipe. -/
theorem claim_C9_witness :
    text_preprocess (pys "12" ++ pys "|t|" ++ pys "x|y" ++ pys "\n") =
      .ok (pys "12", pys "x|y") :=
  (claim_C9_serialize_roundtrip exDoc (pys "12") (pys "x|y")
    (by decide)).2.1

/-- Appending to the last list of a list-of-lists (through `getD`/`set`,
as the lookup-table update does) appends to the flattening. -/
theorem flatten_set_getD (v : Int) :
    ∀ (k : Nat) (l : List (List Int)), l.length = k + 1 →
      (l.set k ((l.getD k []) ++ [v])).flatten = l.flatten ++ [v] := by
  intro k
  induction k with
  | zero =>
    intro l hl
    match l with
    | [a] => simp
  | succ k ih =>
    intro l hl
    match l with
    | a :: t =>
      have ht : t.length = k + 1 := by simpa using hl
      simp only [List.set_cons_succ, List.getD_cons_succ, List.flatten_cons]
      rw [ih t ht, List.append_assoc]

/-- The co-walk invariant: the lookup table has one list per finalized or
current token, its flattening is strictly increasing, every recorded
index lies between 0 and the raw-text cursor, and the cursor is at least
-1. -/
structure WInv (st : WalkState) : Prop where
  llen : st.token_to_char_lookup.length = st.current_token_index + 1
  chain : List.Chain' (fun a b : Int => a < b) st.token_to_char_lookup.flatten
  bnd : ∀ x ∈ st.token_to_char_lookup.flatten,
    0 ≤ x ∧ x ≤ st.current_char_index
  clb : -1 ≤ st.current_char_index

/-- `finalize_tok` preserves the invariant and leaves the raw cursor and
the recorded indices unchanged. -/
theorem finalize_tok_winv {clt : List (Option Label)} {st st' : WalkState}
    (h : finalize_tok clt st = .ok st') (hi : WInv st) :
    WInv st' ∧ st'.current_char_index = st.current_char_index ∧
      st'.token_targets.length = st.token_targets.length := by
  unfold finalize_tok at h
  split at h
  · split at h
    next => exact absurd h (by simp)
    next lbl hget =>
      split at h
      next => exact absurd h (by simp)
      next tt hset =>
        split at h
        next => exact absurd h (by simp)
        next t r hrem =>
          have hst' : _ = st' := (Except.ok.injEq _ _).mp h
          subst hst'
          have htt : tt.length = st.token_targets.length := by
            unfold pySetN at hset
            split at hset
            · have h2 := (Except.ok.injEq _ _).mp hset
              rw [← h2]
              simp
            · exact absurd hset (by simp)
          refine ⟨⟨?_, ?_, ?_, ?_⟩, rfl, htt⟩
          · simp [hi.llen]
          · simpa using hi.chain
          · simpa using hi.bnd
          · simpa using hi.clb
  · have hst' : st = st' := (Except.ok.injEq _ _).mp h
    exact hst' ▸ ⟨hi, rfl, rfl⟩

/-- `consume_flag` preserves the invariant; the raw cursor advances by
one exactly on the raw-consuming flags `0` and `-1`; the targets list is
untouched. -/
theorem consume_flag_winv {st : WalkState} (hi : WInv st) (f : Int) :
    WInv (consume_flag st f) ∧
      (consume_flag st f).current_char_index =
        st.current_char_index + (if (f == 0 || f == -1) = true then 1 else 0) ∧
      (consume_flag st f).token_targets.length = st.token_targets.length := by
  unfold consume_flag
  by_cases h0 : f = 0
  · subst h0
    rw [if_pos rfl]
    have hflat := flatten_set_getD (st.current_char_index + 1)
      st.current_token_index st.token_to_char_lookup hi.llen
    refine ⟨⟨?_, ?_, ?_, ?_⟩, by simp, rfl⟩
    · simpa using hi.llen
    · show List.Chain' _
        ((st.token_to_char_lookup.set st.current_token_index
          ((st.token_to_char_lookup.getD st.current_token_index []) ++
            [st.current_char_index + 1])).flatten)
      rw [hflat, List.chain'_append]
      refine ⟨hi.chain, List.chain'_singleton _, ?_⟩
      intro x hx y hy
      have hxm : x ∈ st.token_to_char_lookup.flatten := by
        rcases List.mem_getLast?_eq_getLast hx with ⟨hne, hxe⟩
        rw [hxe]
        exact List.getLast_mem hne
      have hyv : st.current_char_index + 1 = y := by simpa using hy
      rcases hi.bnd x hxm with ⟨_, h2⟩
      rw [← hyv]
      omega
    · intro x hx
      show 0 ≤ x ∧ x ≤ st.current_char_index + 1
      rw [show ((st.token_to_char_lookup.set st.current_token_index
          ((st.token_to_char_lookup.getD st.current_token_index []) ++
            [st.current_char_index + 1])).flatten) =
          st.token_to_char_lookup.flatten ++ [st.current_char_index + 1]
        from hflat] at hx
      rcases List.mem_append.mp hx with hold | hnew
      · rcases hi.bnd x hold with ⟨h1, h2⟩
        exact ⟨h1, by omega⟩
      · have hx2 : x = st.current_char_index + 1 := by simpa using hnew
        have := hi.clb
        constructor <;> omega
    · have := hi.clb
      show -1 ≤ st.current_char_index + 1
      omega
  · rw [if_neg h0]
    by_cases h1 : f = -1
    · subst h1
      rw [if_pos rfl]
      refine ⟨⟨hi.llen, hi.chain, ?_, ?_⟩, by simp, rfl⟩
      · intro x hx
        show 0 ≤ x ∧ x ≤ st.current_char_index + 1
        rcases hi.bnd x hx with ⟨ha, hb⟩
        exact ⟨ha, by omega⟩
      · have := hi.clb
        show -1 ≤ st.current_char_index + 1
        omega
    · rw [if_neg h1]
      refine ⟨⟨hi.llen, hi.chain, hi.bnd, hi.clb⟩, ?_, rfl⟩
      simp [h0, h1]

/-- `walkStep` preserves the invariant, with the exact raw-cursor
accounting. -/
theorem walkStep_winv {clt : List (Option Label)} {st st' : WalkState}
    {f : Int} (h : walkStep clt st f = .ok st') (hi : WInv st) :
    WInv st' ∧
      st'.current_char_index =
        st.current_char_index + (if (f == 0 || f == -1) = true then 1 else 0) ∧
      st'.token_targets.length = st.token_targets.length := by
  unfold walkStep at h
  cases hf : finalize_tok clt st with
  | error e =>
    rw [hf] at h
    exact absurd h (by simp [Except.map])
  | ok s₁ =>
    rw [hf] at h
    have hst' : consume_flag s₁ f = st' := by
      have h2 : Except.ok (consume_flag s₁ f) = Except.ok st' := h
      exact (Except.ok.injEq _ _).mp h2
    rcases finalize_tok_winv hf hi with ⟨hi₁, hc₁, hl₁⟩
    rcases consume_flag_winv hi₁ f with ⟨hi₂, hc₂, hl₂⟩
    rw [hst'] at hi₂ hc₂ hl₂
    exact ⟨hi₂, by rw [hc₂, hc₁], by rw [hl₂, hl₁]⟩

/-- The whole flag loop preserves the invariant; the final raw cursor is
the initial one plus the number of raw-consuming flags; the targets list
keeps its length. -/
theorem walk_foldlM_winv {clt : List (Option Label)} :
    ∀ (flags : List Int) (st st' : WalkState),
      List.foldlM (walkStep clt) st flags = .ok st' → WInv st →
      WInv st' ∧
        st'.current_char_index =
          st.current_char_index +
            (flags.countP (fun f => f == 0 || f == -1) : Int) ∧
        st'.token_targets.length = st.token_targets.length := by
  intro flags
  induction flags with
  | nil =>
    intro st st' h hi
    have h2 : Except.ok st = Except.ok st' := h
    have h3 := (Except.ok.injEq _ _).mp h2
    subst h3
    exact ⟨hi, by simp, rfl⟩
  | cons f fs ih =>
    intro st st' h hi
    rw [List.foldlM_cons] at h
    cases hstep : walkStep clt st f with
    | error e =>
      rw [hstep] at h
      exact Except.noConfusion h
    | ok s₁ =>
      rw [hstep] at h
      have h2 : List.foldlM (walkStep clt) s₁ fs = .ok st' := h
      rcases walkStep_winv hstep hi with ⟨hi₁, hc₁, hl₁⟩
      rcases ih s₁ st' h2 hi₁ with ⟨hi₂, hc₂, hl₂⟩
      refine ⟨hi₂, ?_, by rw [hl₂, hl₁]⟩
      rw [hc₂, hc₁, List.countP_cons]
      by_cases hf : (f == 0 || f == -1) = true <;> simp [hf] <;> omega

/-- A successful co-walk satisfies the invariant; the final raw cursor is
`-1` plus the number of raw-consuming flags; the targets list has one
slot per token. -/
theorem walkDiff_winv {clt : List (Option Label)} {text : List PyStr}
    {flags : List Int} {st : WalkState}
    (h : walkDiff clt text flags = .ok st) :
    WInv st ∧
      st.current_char_index =
        -1 + (flags.countP (fun f => f == 0 || f == -1) : Int) ∧
      st.token_targets.length = text.length := by
  unfold walkDiff at h
  cases text with
  | nil => exact Except.noConfusion h
  | cons t rest =>
    have hinit : WInv
        { token_targets := List.replicate (rest.length + 1) (none : Option Label),
          token_to_char_lookup := [[]],
          chars_left_in_current_token := (t.length : Int),
          current_char_index := -1,
          current_token_index := 0,
          rem := rest } := by
      refine ⟨by simp, by simp, by simp, by simp⟩
    rcases walk_foldlM_winv flags _ st h hinit with ⟨hi, hc, hl⟩
    refine ⟨hi, by simpa using hc, by simpa using hl⟩

/-- Inversion of a successful `mkDocument`: the stored fields are related
exactly as `__init__` computes them, and the alignment fields come from a
successful co-walk. -/
theorem mkDocument_ok {tokenize : PyStr → List PyStr}
    {diffOf : PyStr → PyStr → List (Int × PyStr)}
    {tl al : PyStr} {ms : List PyStr} {d : PubTatorDocument}
    (h : mkDocument tokenize diffOf tl al ms = .ok d) :
    d.raw_text = d.title ++ '\n' :: d.abstract ∧
    d.text = tokenize d.raw_text ∧
    d.char_level_targets = char_level_targets d.raw_text d.umls_entities ∧
    d.start_end_indices =
      d.umls_entities.map (fun e => (e.start_idx - 1, e.stop_idx - 1)) ∧
    ∃ st, walkDiff d.char_level_targets d.text
        (flatten_diff (diffOf d.raw_text d.text.flatten)) = .ok st ∧
      d.targets = st.token_targets ∧
      d.token_to_char_lookup = st.token_to_char_lookup := by
  unfold mkDocument at h
  split at h
  · exact Except.noConfusion h
  next pmid title hpre1 =>
    split at h
    · exact Except.noConfusion h
    next junk abstract hpre2 =>
      split at h
      · exact Except.noConfusion h
      next entities hents =>
        dsimp only at h
        split at h
        · exact Except.noConfusion h
        next st hwalk =>
          have hd : _ = d := (Except.ok.injEq _ _).mp h
          subst hd
          exact ⟨rfl, rfl, rfl, rfl, st, hwalk, rfl, rfl⟩

/-- Claim C6 (confirmed): for every successfully constructed document
whose diff fully covers the raw text, the concatenation of the
`token_to_char_lookup` lists in token order is strictly increasing — so
no raw index appears twice — and every recorded index is a valid
`raw_text` index. -/
theorem claim_C6_token_to_chars_strict (tokenize : PyStr → List PyStr)
    (diffOf : PyStr → PyStr → List (Int × PyStr))
    (tl al : PyStr) (ms : List PyStr) (d : PubTatorDocument)
    (hok : mkDocument tokenize diffOf tl al ms = .ok d)
    (hcov : covers_raw (flatten_diff (diffOf d.raw_text d.text.flatten))
      d.raw_text.length) :
    List.Chain' (fun a b : Int => a < b) d.token_to_char_lookup.flatten ∧
    d.token_to_char_lookup.flatten.Nodup ∧
    ∀ x ∈ d.token_to_char_lookup.flatten,
      0 ≤ x ∧ x < (d.raw_text.length : Int) := by
  rcases mkDocument_ok hok with ⟨_, _, _, _, st, hwalk, _, hlk⟩
  rcases walkDiff_winv hwalk with ⟨hi, hc, _⟩
  rw [hlk]
  have hchain := hi.chain
  have hnodup : st.token_to_char_lookup.flatten.Nodup :=
    (List.chain'_iff_pairwise.mp hchain).imp (fun hab => ne_of_lt hab)
  refine ⟨hchain, hnodup, ?_⟩
  intro x hx
  rcases hi.bnd x hx with ⟨h1, h2⟩
  have hcnt : (flatten_diff (diffOf d.raw_text d.text.flatten)).countP
      (fun f => f == 0 || f == -1) = d.raw_text.length := hcov
  rw [hc] at h2
  refine ⟨h1, ?_⟩
  omega

/-- Witness for C6 at a concrete document. -/
theorem claim_C6_witness :
    List.Chain' (fun a b : Int => a < b) exDoc.token_to_char_lookup.flatten ∧
    exDoc.token_to_char_lookup.flatten.Nodup ∧
    ∀ x ∈ exDoc.token_to_char_lookup.flatten,
      0 ≤ x ∧ x < (exDoc.raw_text.length : Int) :=
  claim_C6_token_to_chars_strict exTok exDiff (pys "1|t|a\n") (pys "1|a|b\n")
    [pys "1\t0\t3\tm\tT1\tUMLS:C9"] exDoc (by decide) (by decide)

/-- Claim C7 (confirmed): every successfully constructed document has
one character label per raw character and one token label per token,
with `raw_text = title + "\n" + abstract` and `tokens` the tokenizer's
output on `raw_text`. -/
theorem claim_C7_lengths (tokenize : PyStr → List PyStr)
    (diffOf : PyStr → PyStr → List (Int × PyStr))
    (tl al : PyStr) (ms : List PyStr) (d : PubTatorDocument)
    (hok : mkDocument tokenize diffOf tl al ms = .ok d) :
    d.char_level_targets.length = d.raw_text.length ∧
    d.targets.length = d.text.length ∧
    d.raw_text = d.title ++ '\n' :: d.abstract ∧
    d.text = tokenize d.raw_text := by
  rcases mkDocument_ok hok with ⟨hraw, htext, hclt, _, st, hwalk, htgt, _⟩
  rcases walkDiff_winv hwalk with ⟨_, _, hlen⟩
  refine ⟨?_, ?_, hraw, htext⟩
  · rw [hclt]
    unfold char_level_targets
    simp
  · rw [htgt, hlen]

/-- Witness for C7 at a concrete document. -/
theorem claim_C7_witness :
    exDoc.char_level_targets.length = exDoc.raw_text.length ∧
    exDoc.targets.length = exDoc.text.length ∧
    exDoc.raw_text = exDoc.title ++ '\n' :: exDoc.abstract ∧
    exDoc.text = exTok exDoc.raw_text :=
  claim_C7_lengths exTok exDiff (pys "1|t|a\n") (pys "1|a|b\n")
    [pys "1\t0\t3\tm\tT1\tUMLS:C9"] exDoc (by decide)

/-- The all-zero entity, used as a lookup default. -/
def defaultEntity : UMLS_Entity :=
  { orig_text := [], start_idx := 0, stop_idx := 0, mention_text := [],
    semantic_type_ID := [], cui := [] }

/-- Claim C10 (confirmed): `start_end_indices` has one pair per entity
mention, in mention order, and the j-th pair is the j-th mention's
`(start_idx - 1, stop_idx - 1)` (lines 110-114). -/
theorem claim_C10_start_end_indices (tokenize : PyStr → List PyStr)
    (diffOf : PyStr → PyStr → List (Int × PyStr))
    (tl al : PyStr) (ms : List PyStr) (d : PubTatorDocument)
    (hok : mkDocument tokenize diffOf tl al ms = .ok d) :
    d.start_end_indices.length = d.umls_entities.length ∧
    ∀ j, j < d.umls_entities.length →
      d.start_end_indices.getD j (0, 0) =
        ((d.umls_entities.getD j defaultEntity).start_idx - 1,
         (d.umls_entities.getD j defaultEntity).stop_idx - 1) := by
  rcases mkDocument_ok hok with ⟨_, _, _, hsei, _⟩
  constructor
  · rw [hsei]
    simp
  · intro j hj
    rw [hsei, List.getD_eq_getElem?_getD, List.getElem?_map,
        List.getElem?_eq_getElem hj, List.getD_eq_getElem?_getD,
        List.getElem?_eq_getElem hj]
    simp

/-- Witness for C10 at a concrete document with one mention. -/
theorem claim_C10_witness :
    exDoc.start_end_indices.length = exDoc.umls_entities.length ∧
    exDoc.start_end_indices.getD 0 (0, 0) = (-1, 2) := by
  have h := claim_C10_start_end_indices exTok exDiff (pys "1|t|a\n")
    (pys "1|a|b\n") [pys "1\t0\t3\tm\tT1\tUMLS:C9"] exDoc (by decide)
  refine ⟨h.1, ?_⟩
  rw [h.2 0 (by decide)]
  decide
